import Mathlib

/-!
Verification of the mortality-dashboard data pipeline (`app.py`).

The shallow embedding below models, straight from the source:
  - `normalize_columns` : trim, lowercase, and replace spaces by underscores
    in every column name;
  - `find_first` : first alias of a fixed candidate list present among the
    normalized column names;
  - `load_data` : alias detection plus per-cell numeric coercion
    (`pd.to_numeric(errors="coerce")`, and `astype("Int64")` for the year
    column, which raises on a non-integral numeric value);
  - the schema check (`if not YEAR_COL or not DEATHS_COL`), the clinic
    placeholder column, the slider bounds (`int(df["year"].min())`, which
    raises when the minimum is missing), the year-range / clinic filter,
    the group-by aggregations and the scalar totals.

Numeric cell values are modelled as rationals (`ℚ`), missing values as
`none`.  Grouping keys are returned in ascending order (pandas
`groupby(sort=True)`).  The clinic aggregate is then ordered by
`sort_values("deaths", ascending=False)` with missing values last; the
default sort kind there is numpy's unstable quicksort, which leaves the
relative order of equal values unspecified, so `sortDesc` below fixes
ties with one concrete stable refinement of that order and only
tie-order-independent consequences (the row multiset and the length,
via the permutation lemmas) are proved about it.
-/

namespace MortalityApp

/-- One canonical row after normalization: `year` integer-or-missing,
`deaths` and `births` numeric-or-missing, `clinic` string-or-missing. -/
structure Record where
  year : Option Int
  deaths : Option ℚ
  births : Option ℚ
  clinic : Option String
deriving DecidableEq, Repr

/-- A raw tabular file: header names and rows of optional cell strings
(`none` is an empty cell, read as missing). -/
structure RawTable where
  cols : List String
  rows : List (List (Option String))
deriving DecidableEq, Repr

/-- The alias mapping attached to the dataframe (`df.attrs["cols_map"]`). -/
structure ColsMap where
  year : Option String
  deaths : Option String
  births : Option String
  clinic : Option String
deriving DecidableEq, Repr

/-- Drop whitespace at both ends of a character list (models `str.strip()`). -/
def trimChars (cs : List Char) : List Char :=
  ((cs.dropWhile (fun ch => ch.isWhitespace)).reverse.dropWhile
    (fun ch => ch.isWhitespace)).reverse

/-- Canonicalize one column name: `strip`, `lower`, `replace(" ", "_")`. -/
def normName (c : String) : String :=
  String.mk ((trimChars c.data).map
    (fun ch => if ch = ' ' then '_' else ch.toLower))

/-- `normalize_columns` of `app.py`: canonicalize every column name. -/
def normalize_columns (cols : List String) : List String :=
  cols.map normName

/-- `find_first` of `app.py`: first candidate present among `df_cols`. -/
def find_first (df_cols : List String) (candidates : List String) :
    Option String :=
  match candidates with
  | [] => none
  | c :: rest => if c ∈ df_cols then some c else find_first df_cols rest

/-- The four alias lookups of `load_data` (lines 36-39 of `app.py`). -/
def detectCols (cols : List String) : ColsMap where
  year := find_first cols ["year", "yr"]
  deaths := find_first cols ["deaths", "death", "deaths_count", "death_count"]
  births := find_first cols ["births", "birth", "birth_count", "births_count"]
  clinic := find_first cols ["clinic", "hospital", "place", "location"]

/-- Value of a nonempty digit string, `none` on any non-digit. -/
def digitsVal (cs : List Char) : Option Nat :=
  if cs.isEmpty then none
  else
    cs.foldl
      (fun acc ch =>
        match acc with
        | none => none
        | some n => if ch.isDigit then some (n * 10 + (ch.toNat - 48)) else none)
      (some 0)

/-- Addition on `ℚ`, written through the smart constructor `mkRat` so
that it evaluates inside the kernel; `qAdd_eq_add` below identifies it
with `+`. -/
def qAdd (a b : ℚ) : ℚ :=
  mkRat (a.num * b.den + b.num * a.den) (a.den * b.den)

/-- Division on `ℚ` through `Rat.divInt`; `qDiv_eq_div` below identifies
it with `/`. -/
def qDiv (a b : ℚ) : ℚ :=
  Rat.divInt (a.num * b.den) (a.den * b.num)

/-- The numeric parser behind `pd.to_numeric(errors="coerce")` on the
decimal forms occurring here: optional sign, digits, optional fractional
part; anything else coerces to missing. -/
def toNumeric (s : String) : Option ℚ :=
  let signed : Bool × List Char :=
    match s.data with
    | '-' :: r => (true, r)
    | '+' :: r => (false, r)
    | r => (false, r)
  let intPart := signed.2.takeWhile (fun ch => ch ≠ '.')
  let rest := signed.2.dropWhile (fun ch => ch ≠ '.')
  let mag : Option ℚ :=
    match rest with
    | [] =>
        match digitsVal intPart with
        | none => none
        | some n => some (n : ℚ)
    | _ :: fracPart =>
        match digitsVal intPart, digitsVal fracPart with
        | some n, some f =>
            some (mkRat (n * 10 ^ fracPart.length + f) (10 ^ fracPart.length))
        | _, _ => none
  match mag with
  | none => none
  | some q => some (if signed.1 then -q else q)

/-- `astype("Int64")` on a numeric value: safe cast only when integral,
raising (an `Except.error`) otherwise. -/
def int64Cast (q : ℚ) : Except String Int :=
  if q.den = 1 then Except.ok q.num
  else Except.error "cannot safely cast non-equivalent float64 to int64"

/-- Year-column coercion: `pd.to_numeric(errors="coerce").astype("Int64")`.
Unparseable text becomes missing; a non-integral number raises. -/
def coerceYear (cell : Option String) : Except String (Option Int) :=
  match cell.bind toNumeric with
  | none => Except.ok none
  | some q =>
      match int64Cast q with
      | Except.ok n => Except.ok (some n)
      | Except.error e => Except.error e

/-- Look up a cell of a row by normalized column name (first occurrence). -/
def getCell (ncols : List String) (row : List (Option String))
    (c : String) : Option String :=
  match ncols.findIdx? (fun c2 => c2 == c) with
  | none => none
  | some i =>
      match row.get? i with
      | none => none
      | some cell => cell

/-- Coercion of an optional numeric column for one row:
absent column gives no value, otherwise `to_numeric` on the cell. -/
def coerceNumField (col : Option String) (ncols : List String)
    (row : List (Option String)) : Option ℚ :=
  match col with
  | none => none
  | some c =>
      match getCell ncols row c with
      | none => none
      | some s => toNumeric s

/-- Year coercion for one row; skipped entirely when no year column was
detected (line 42 of `app.py`). -/
def coerceYearField (cm : ColsMap) (ncols : List String)
    (row : List (Option String)) : Except String (Option Int) :=
  match cm.year with
  | none => Except.ok none
  | some yc => coerceYear (getCell ncols row yc)

/-- The clinic value for one row: the detected column's cell as-is, or the
dataset-level placeholder `"All"` when no clinic column exists
(lines 95-97 of `app.py`). -/
def clinicField (col : Option String) (ncols : List String)
    (row : List (Option String)) : Option String :=
  match col with
  | none => some "All"
  | some c => getCell ncols row c

/-- Build one canonical record from one raw row. -/
def buildRecord (ncols : List String) (cm : ColsMap)
    (row : List (Option String)) : Except String Record :=
  match coerceYearField cm ncols row with
  | Except.error e => Except.error e
  | Except.ok y =>
      Except.ok
        { year := y
          deaths := coerceNumField cm.deaths ncols row
          births := coerceNumField cm.births ncols row
          clinic := clinicField cm.clinic ncols row }

/-- Build every canonical record; the first coercion failure propagates
(the uncaught pandas exception). -/
def buildRecords (ncols : List String) (cm : ColsMap) :
    List (List (Option String)) → Except String (List Record)
  | [] => Except.ok []
  | row :: rest =>
      match buildRecord ncols cm row, buildRecords ncols cm rest with
      | Except.ok r, Except.ok rs => Except.ok (r :: rs)
      | Except.error e, _ => Except.error e
      | Except.ok _, Except.error e => Except.error e

/-- `load_data` of `app.py` (file reading aside): normalize the header,
detect aliases, coerce cell values, and return the alias map together
with the canonical records. -/
def load_data (t : RawTable) : Except String (ColsMap × List Record) :=
  match buildRecords (normalize_columns t.cols) (detectCols (normalize_columns t.cols)) t.rows with
  | Except.ok recs => Except.ok (detectCols (normalize_columns t.cols), recs)
  | Except.error e => Except.error e

/-- Strict lexicographic comparison of character lists (Python `<` on
strings: code-point order, a proper prefix is smaller). -/
def charListLt : List Char → List Char → Bool
  | [], [] => false
  | [], _ :: _ => true
  | _ :: _, [] => false
  | c :: cs, d :: ds => if c = d then charListLt cs ds else decide (c < d)

/-- Python `<` on strings. -/
def strLt (a b : String) : Bool :=
  charListLt a.data b.data

/-- Python `<` on integers. -/
def intLt (a b : Int) : Bool :=
  decide (a < b)

/-- Insert a key into an ascending duplicate-free list, keeping it
ascending and duplicate-free (the order pandas `groupby(sort=True)` and
Python `sorted` produce). -/
def sortedInsert {K : Type} [DecidableEq K] (lt : K → K → Bool) (x : K) :
    List K → List K
  | [] => [x]
  | y :: ys =>
      if lt x y then x :: y :: ys
      else if x = y then y :: ys
      else y :: sortedInsert lt x ys

/-- The ascending duplicate-free list of values occurring in `l`. -/
def sortedUnique {K : Type} [DecidableEq K] (lt : K → K → Bool)
    (l : List K) : List K :=
  l.foldr (sortedInsert lt) []

/-- `groupby(key, sort=True, dropna=True)`: one group per non-missing key
value, keys ascending, each group in original row order. -/
def groupByKey {K : Type} [DecidableEq K] (lt : K → K → Bool)
    (key : Record → Option K) (rs : List Record) : List (K × List Record) :=
  (sortedUnique lt (rs.filterMap key)).map
    (fun k => (k, rs.filter (fun r => decide (key r = some k))))

/-- `.agg(agg_func)` over the non-missing values of a column slice:
`sum` of an empty slice is `0`, `mean` of an empty slice is missing
(pandas `NaN`); otherwise the arithmetic total or average. -/
def reduceVals (mode : String) (vals : List ℚ) : Option ℚ :=
  if mode = "sum" then some (vals.foldr qAdd 0)
  else if vals.length = 0 then none
  else some (qDiv (vals.foldr qAdd 0) (vals.length : ℚ))

/-- The year-range mask (line 132 of `app.py`): a missing year compares to
`NA`, which boolean indexing treats as `False`. -/
def yearKeep (lo hi : Int) (r : Record) : Bool :=
  match r.year with
  | none => false
  | some y => decide (lo ≤ y) && decide (y ≤ hi)

/-- `filtered["clinic"].isin(selected_clinics)`: a missing clinic is never
a member. -/
def clinicKeep (clinics : List String) (r : Record) : Bool :=
  match r.clinic with
  | none => false
  | some c => decide (c ∈ clinics)

/-- The `filtered` dataframe (lines 132-134 of `app.py`): year-range mask
first, then — only when the clinic selection is nonempty — the membership
mask. -/
def filterRecords (rs : List Record) (lo hi : Int)
    (clinics : List String) : List Record :=
  if clinics = [] then rs.filter (yearKeep lo hi)
  else (rs.filter (yearKeep lo hi)).filter (clinicKeep clinics)

/-- `deaths_by_year` (line 140): group by year, reduce the deaths column. -/
def deaths_by_year (rs : List Record) (mode : String) :
    List (Int × Option ℚ) :=
  (groupByKey intLt (fun r => r.year) rs).map
    (fun p => (p.1, reduceVals mode (p.2.filterMap (fun r => r.deaths))))

/-- Value comparison used by `sort_values`: missing sorts below every
number (`na_position="last"` under a descending sort). -/
def valLe : Option ℚ → Option ℚ → Bool
  | none, _ => true
  | some _, none => false
  | some p, some q => decide (p ≤ q)

/-- `a` may stay in front of `b` in the descending clinic ordering. -/
def descLE (a b : String × Option ℚ) : Bool :=
  valLe b.2 a.2

/-- Insertion step of `sortDesc`; the tie order it fixes is a modelling
choice, not a guarantee of the program's unstable sort. -/
def insertDesc (x : String × Option ℚ) :
    List (String × Option ℚ) → List (String × Option ℚ)
  | [] => [x]
  | y :: ys => if descLE x y then x :: y :: ys else y :: insertDesc x ys

/-- `sort_values("deaths", ascending=False)` up to tie order: the pandas
default sort kind is numpy's unstable quicksort, whose ordering of equal
values is an implementation detail, so this model fixes ties with one
concrete (insertion-based) refinement of that order; only consequences
independent of the tie order — the row multiset and the length — are
read off it. -/
def sortDesc (l : List (String × Option ℚ)) : List (String × Option ℚ) :=
  l.foldr insertDesc []

/-- `clinic_agg` (line 159): group by clinic, reduce deaths, then sort by
descending aggregated deaths. -/
def clinic_agg (rs : List Record) (mode : String) :
    List (String × Option ℚ) :=
  sortDesc
    ((groupByKey strLt (fun r => r.clinic) rs).map
      (fun p => (p.1, reduceVals mode (p.2.filterMap (fun r => r.deaths)))))

/-- `total_deaths` (line 179): the reducer over the whole filtered deaths
column. -/
def total_deaths (rs : List Record) (mode : String) : Option ℚ :=
  reduceVals mode (rs.filterMap (fun r => r.deaths))

/-- `total_births` (line 182): the reducer over the whole filtered births
column (only displayed when a births column exists). -/
def total_births (rs : List Record) (mode : String) : Option ℚ :=
  reduceVals mode (rs.filterMap (fun r => r.births))

/-- `clinic_list` (line 123): `sorted(df["clinic"].dropna().unique())`. -/
def clinic_list (rs : List Record) : List String :=
  sortedUnique strLt (rs.filterMap (fun r => r.clinic))

/-- Lines 118-119: `int(df["year"].min())` / `int(df["year"].max())` —
`int()` of a missing minimum raises. -/
def sliderBounds (rs : List Record) : Except String (Int × Int) :=
  match (rs.filterMap (fun r => r.year)).min?,
      (rs.filterMap (fun r => r.year)).max? with
  | some a, some b => Except.ok (a, b)
  | _, _ => Except.error "int() argument must be a number, not NAType"

/-- The sidebar state: year range, clinic selection, aggregation mode
("sum" or "mean", from `agg_func` on line 127). -/
structure Selection where
  lo : Int
  hi : Int
  clinics : List String
  mode : String
deriving DecidableEq, Repr

/-- Everything the app derives from the filtered records. -/
structure OutputData where
  filtered : List Record
  byYear : List (Int × Option ℚ)
  byClinic : List (String × Option ℚ)
  totalDeaths : Option ℚ
  totalBirths : Option (Option ℚ)
deriving DecidableEq, Repr

/-- A fatal condition surfaced (or raised) by the app run. -/
inductive AppError where
  | schemaInvalid (detected : List String)
  | typeError (msg : String)
deriving DecidableEq, Repr

/-- The whole run after the file was read: `load_data`, the required-column
check of line 87 (its message lists the normalized columns), the slider
bounds of lines 118-119, then filtering and aggregation. -/
def runPipeline (t : RawTable) (sel : Selection) :
    Except AppError OutputData :=
  match load_data t with
  | Except.error e => Except.error (AppError.typeError e)
  | Except.ok (cm, recs) =>
      if cm.year.isNone || cm.deaths.isNone then
        Except.error (AppError.schemaInvalid (normalize_columns t.cols))
      else
        match sliderBounds recs with
        | Except.error e => Except.error (AppError.typeError e)
        | Except.ok _ =>
            let f := filterRecords recs sel.lo sel.hi sel.clinics
            Except.ok
              { filtered := f
                byYear := deaths_by_year f sel.mode
                byClinic := clinic_agg f sel.mode
                totalDeaths := total_deaths f sel.mode
                totalBirths :=
                  if cm.births.isSome then some (total_births f sel.mode)
                  else none }

/-- The facts a strict comparator must satisfy for the sorting proofs. -/
structure StrictOrd {K : Type} (lt : K → K → Bool) : Prop where
  irrefl : ∀ a, lt a a = false
  trans : ∀ a b c, lt a b = true → lt b c = true → lt a c = true
  tri : ∀ a b, lt a b = false → a = b ∨ lt b a = true

/-- The non-missing deaths values of the year-`y` group of `rs`. -/
def groupDeaths (rs : List Record) (y : Int) : List ℚ :=
  (rs.filter (fun r => decide (r.year = some y))).filterMap (fun r => r.deaths)

deriving instance DecidableEq for Except

/-! ### Arithmetic bridge lemmas -/

theorem qAdd_eq_add (a b : ℚ) : qAdd a b = a + b := by
  rw [qAdd, Rat.mkRat_eq_div]
  push_cast
  conv => rhs; rw [← Rat.num_div_den a, ← Rat.num_div_den b]
  have ha : ((a.den : ℚ)) ≠ 0 := by positivity
  have hb : ((b.den : ℚ)) ≠ 0 := by positivity
  field_simp

theorem qDiv_eq_div (a b : ℚ) : qDiv a b = a / b := by
  rw [qDiv, Rat.divInt_eq_div]
  push_cast
  by_cases hb : b = 0
  · subst hb; simp
  · conv => rhs; rw [← Rat.num_div_den a, ← Rat.num_div_den b]
    have ha : ((a.den : ℚ)) ≠ 0 := by positivity
    have hbd : ((b.den : ℚ)) ≠ 0 := by positivity
    have hbn : ((b.num : ℚ)) ≠ 0 := by simpa using (Rat.num_ne_zero).mpr hb
    field_simp

theorem foldr_qAdd_eq_sum (l : List ℚ) : l.foldr qAdd 0 = l.sum := by
  induction l with
  | nil => simp
  | cons a l ih => simp [qAdd_eq_add, ih]

theorem reduceVals_sum (vals : List ℚ) :
    reduceVals "sum" vals = some vals.sum := by
  simp [reduceVals, foldr_qAdd_eq_sum]

theorem reduceVals_mean (vals : List ℚ) (h : vals ≠ []) :
    reduceVals "mean" vals = some (vals.sum / (vals.length : ℚ)) := by
  have hlen : vals.length ≠ 0 := by simpa using h
  simp [reduceVals, hlen, foldr_qAdd_eq_sum, qDiv_eq_div]

/-! ### Filtering -/

theorem yearKeep_iff (lo hi : Int) (r : Record) :
    yearKeep lo hi r = true ↔ ∃ y : Int, r.year = some y ∧ lo ≤ y ∧ y ≤ hi := by
  cases hy : r.year with
  | none => simp [yearKeep, hy]
  | some y => simp [yearKeep, hy]

theorem clinicKeep_iff (clinics : List String) (r : Record) :
    clinicKeep clinics r = true ↔ ∃ c, r.clinic = some c ∧ c ∈ clinics := by
  cases hc : r.clinic with
  | none => simp [clinicKeep, hc]
  | some c => simp [clinicKeep, hc]

theorem mem_filterRecords (rs : List Record) (lo hi : Int)
    (clinics : List String) (r : Record) :
    r ∈ filterRecords rs lo hi clinics ↔
      r ∈ rs ∧ (∃ y : Int, r.year = some y ∧ lo ≤ y ∧ y ≤ hi) ∧
        (clinics = [] ∨ ∃ c, r.clinic = some c ∧ c ∈ clinics) := by
  unfold filterRecords
  by_cases h : clinics = []
  · simp [h, List.mem_filter, yearKeep_iff]
  · simp [h, List.mem_filter, yearKeep_iff, clinicKeep_iff, and_assoc]
    tauto

/-- C1: a record is kept by the filter iff its year is a present integer
within `[lo, hi]` inclusive and either the clinic selection is empty (no
restriction) or its clinic is a member of the selection; a record with
missing year is never kept. -/
theorem filtered_mem_characterization (rs : List Record) (lo hi : Int)
    (clinics : List String) (r : Record) :
    r ∈ filterRecords rs lo hi clinics ↔
      r ∈ rs ∧ (∃ y : Int, r.year = some y ∧ lo ≤ y ∧ y ≤ hi) ∧
        (clinics = [] ∨ ∃ c, r.clinic = some c ∧ c ∈ clinics) :=
  mem_filterRecords rs lo hi clinics r

/-- Closed instance of C1 at concrete inputs: a record inside the range is
kept under an empty selection, and a record with missing year is dropped. -/
theorem filtered_mem_characterization_witness :
    (⟨some 1854, some 10, none, some "A"⟩ : Record) ∈
      filterRecords [⟨some 1854, some 10, none, some "A"⟩,
        ⟨none, some 7, none, some "B"⟩] 1850 1860 [] ∧
    (⟨none, some 7, none, some "B"⟩ : Record) ∉
      filterRecords [⟨some 1854, some 10, none, some "A"⟩,
        ⟨none, some 7, none, some "B"⟩] 1850 1860 [] := by
  constructor
  · exact (filtered_mem_characterization _ 1850 1860 [] _).mpr
      ⟨List.mem_cons_self _ _, ⟨1854, rfl, by decide, by decide⟩, Or.inl rfl⟩
  · intro hmem
    rcases (filtered_mem_characterization _ 1850 1860 [] _).mp hmem with
      ⟨-, ⟨y, hy, -⟩, -⟩
    exact Option.noConfusion hy

/-- C3, counterexample: a record whose year text is unparseable is coerced
to a missing year, is excluded by the range filter, and consequently its
deaths value (10) is counted in no clinic aggregate and no scalar total —
the claim that it is "still counted in the scalar totals when grouping by
clinic" fails at this input. -/
theorem unparseable_year_uncounted_cex :
    toNumeric "abc" = none
    ∧ filterRecords [⟨none, some 10, none, some "A"⟩] 1800 1900 [] = []
    ∧ clinic_agg (filterRecords [⟨none, some 10, none, some "A"⟩]
        1800 1900 []) "sum" = []
    ∧ total_deaths (filterRecords [⟨none, some 10, none, some "A"⟩]
        1800 1900 []) "sum" = some 0 := by
  decide

/-- C3, amended: a record with a missing (unparseable) year is excluded
from the filtered set — and therefore from every aggregate and scalar
total computed from it, the clinic grouping included. -/
theorem unparseable_year_excluded (rs : List Record) (lo hi : Int)
    (clinics : List String) (r : Record) (h : r.year = none) :
    r ∉ filterRecords rs lo hi clinics := by
  intro hmem
  rcases (mem_filterRecords rs lo hi clinics r).mp hmem with ⟨-, ⟨y, hy, -⟩, -⟩
  rw [h] at hy
  exact Option.noConfusion hy

/-- Closed instance of the amended C3. -/
theorem unparseable_year_excluded_witness :
    (⟨none, some 10, none, some "A"⟩ : Record).year = none
    ∧ (⟨none, some 10, none, some "A"⟩ : Record) ∉
        filterRecords [⟨none, some 10, none, some "A"⟩] 1800 1900 [] :=
  ⟨rfl, unparseable_year_excluded _ 1800 1900 [] _ rfl⟩

/-! ### Alias resolution -/

theorem find_first_spec (cols : List String) :
    ∀ (cands : List String) (c : String), find_first cols cands = some c →
      c ∈ cols ∧ ∃ pre suf, cands = pre ++ c :: suf ∧ ∀ d ∈ pre, d ∉ cols := by
  intro cands
  induction cands with
  | nil => intro c h; exact Option.noConfusion h
  | cons c0 rest ih =>
      intro c h
      rw [find_first] at h
      by_cases hc0 : c0 ∈ cols
      · rw [if_pos hc0] at h
        cases h
        exact ⟨hc0, [], rest, rfl, by simp⟩
      · rw [if_neg hc0] at h
        rcases ih c h with ⟨hmem, pre, suf, heq, hpre⟩
        refine ⟨hmem, c0 :: pre, suf, by rw [heq]; rfl, ?_⟩
        intro d hd
        rcases List.mem_cons.mp hd with rfl | hd
        · exact hc0
        · exact hpre d hd

/-- C6: alias resolution scans the fixed candidate list in order and
returns the first alias present in the normalized columns (everything
before it is absent; no partial matching — the result is itself a listed
candidate and an exact column name); in particular, when both `deaths`
and `death_count` are present, `deaths` wins, and the four logical
fields of `detectCols` are exactly these `find_first` scans. -/
theorem alias_first_match (cols : List String) :
    (∀ (cands : List String) (c : String), find_first cols cands = some c →
      c ∈ cols ∧ ∃ pre suf, cands = pre ++ c :: suf ∧ ∀ d ∈ pre, d ∉ cols)
    ∧ ("deaths" ∈ cols → (detectCols cols).deaths = some "deaths")
    ∧ (detectCols cols).year = find_first cols ["year", "yr"]
    ∧ (detectCols cols).deaths
        = find_first cols ["deaths", "death", "deaths_count", "death_count"]
    ∧ (detectCols cols).births
        = find_first cols ["births", "birth", "birth_count", "births_count"]
    ∧ (detectCols cols).clinic
        = find_first cols ["clinic", "hospital", "place", "location"] := by
  refine ⟨find_first_spec cols, ?_, rfl, rfl, rfl, rfl⟩
  intro hd
  show find_first cols ["deaths", "death", "deaths_count", "death_count"]
    = some "deaths"
  rw [find_first, if_pos hd]

/-- Closed instance of C6: with both `deaths` and `death_count` present,
`deaths` is selected. -/
theorem alias_first_match_witness :
    ("deaths" : String) ∈ ["death_count", "deaths"]
    ∧ (detectCols ["death_count", "deaths"]).deaths = some "deaths" := by
  have h : ("deaths" : String) ∈ ["death_count", "deaths"] := by decide
  exact ⟨h, (alias_first_match ["death_count", "deaths"]).2.1 h⟩

/-! ### Sorted key lists -/

theorem mem_sortedInsert {K : Type} [DecidableEq K] (lt : K → K → Bool)
    (x z : K) (l : List K) :
    z ∈ sortedInsert lt x l ↔ z = x ∨ z ∈ l := by
  induction l with
  | nil => simp [sortedInsert]
  | cons y ys ih =>
      rw [sortedInsert]
      by_cases h1 : lt x y = true
      · rw [if_pos h1]
        simp
      · rw [if_neg h1]
        by_cases h2 : x = y
        · subst h2
          rw [if_pos rfl]
          simp
        · rw [if_neg h2]
          simp [ih]
          tauto

theorem mem_sortedUnique {K : Type} [DecidableEq K] (lt : K → K → Bool)
    (l : List K) (z : K) :
    z ∈ sortedUnique lt l ↔ z ∈ l := by
  induction l with
  | nil => simp [sortedUnique]
  | cons x xs ih =>
      show z ∈ sortedInsert lt x (sortedUnique lt xs) ↔ z ∈ x :: xs
      rw [mem_sortedInsert, ih]
      simp

theorem sortedUnique_const {K : Type} [DecidableEq K] {lt : K → K → Bool}
    (hso : StrictOrd lt) (a : K) :
    ∀ l : List K, l ≠ [] → (∀ x ∈ l, x = a) → sortedUnique lt l = [a] := by
  intro l
  induction l with
  | nil => intro h; exact absurd rfl h
  | cons x xs ih =>
      intro _ hconst
      have hx : x = a := hconst x (List.mem_cons_self x xs)
      subst hx
      show sortedInsert lt x (sortedUnique lt xs) = [x]
      cases xs with
      | nil => rfl
      | cons x2 xs2 =>
          have h2 : sortedUnique lt (x2 :: xs2) = [x] := by
            refine ih (by simp) ?_
            intro z hz
            exact hconst z (List.mem_cons_of_mem x hz)
          rw [h2, sortedInsert, if_neg (by rw [hso.irrefl x]; simp), if_pos rfl]

/-! ### The comparators are strict orders -/

theorem charListLt_irrefl (a : List Char) : charListLt a a = false := by
  induction a with
  | nil => rfl
  | cons c cs ih => rw [charListLt, if_pos rfl]; exact ih

theorem charListLt_trans :
    ∀ a b c : List Char, charListLt a b = true → charListLt b c = true →
      charListLt a c = true := by
  intro a
  induction a with
  | nil =>
      intro b c hab hbc
      cases b with
      | nil => exact absurd hab (by simp [charListLt])
      | cons y ys =>
          cases c with
          | nil => exact absurd hbc (by simp [charListLt])
          | cons z zs => rfl
  | cons x xs ih =>
      intro b c hab hbc
      cases b with
      | nil => exact absurd hab (by simp [charListLt])
      | cons y ys =>
          cases c with
          | nil => exact absurd hbc (by simp [charListLt])
          | cons z zs =>
              rw [charListLt] at hab hbc ⊢
              by_cases hxy : x = y
              · subst hxy
                rw [if_pos rfl] at hab
                by_cases hyz : x = z
                · subst hyz
                  rw [if_pos rfl] at hbc ⊢
                  exact ih ys zs hab hbc
                · rw [if_neg hyz] at hbc ⊢
                  exact hbc
              · rw [if_neg hxy] at hab
                have hxy2 : x < y := by simpa using hab
                by_cases hyz : y = z
                · subst hyz
                  rw [if_neg hxy]
                  simpa using hxy2
                · rw [if_neg hyz] at hbc
                  have hyz2 : y < z := by simpa using hbc
                  have hxz : x < z := lt_trans hxy2 hyz2
                  rw [if_neg (ne_of_lt hxz)]
                  simpa using hxz

theorem charListLt_tri :
    ∀ a b : List Char, charListLt a b = false →
      a = b ∨ charListLt b a = true := by
  intro a
  induction a with
  | nil =>
      intro b hab
      cases b with
      | nil => exact Or.inl rfl
      | cons y ys => exact absurd hab (by simp [charListLt])
  | cons x xs ih =>
      intro b hab
      cases b with
      | nil => exact Or.inr rfl
      | cons y ys =>
          rw [charListLt] at hab
          by_cases hxy : x = y
          · subst hxy
            rw [if_pos rfl] at hab
            rcases ih ys hab with heq | hlt
            · exact Or.inl (by rw [heq])
            · right
              rw [charListLt, if_pos rfl]
              exact hlt
          · rw [if_neg hxy] at hab
            have hxy2 : ¬x < y := by simpa using hab
            have hyx : y < x := lt_of_le_of_ne (not_lt.mp hxy2) (fun h => hxy h.symm)
            right
            rw [charListLt, if_neg (ne_of_lt hyx)]
            simpa using hyx

theorem strLt_strictOrd : StrictOrd strLt := by
  constructor
  · intro a
    exact charListLt_irrefl a.data
  · intro a b c hab hbc
    exact charListLt_trans a.data b.data c.data hab hbc
  · intro a b hab
    rcases charListLt_tri a.data b.data hab with heq | hlt
    · left
      cases a
      cases b
      simp only at heq
      rw [heq]
    · exact Or.inr hlt

/-! ### The descending value sort -/

theorem insertDesc_perm (x : String × Option ℚ)
    (l : List (String × Option ℚ)) : List.Perm (insertDesc x l) (x :: l) := by
  induction l with
  | nil => exact List.Perm.refl _
  | cons y ys ih =>
      rw [insertDesc]
      by_cases h : descLE x y = true
      · rw [if_pos h]
      · rw [if_neg h]
        exact List.Perm.trans (List.Perm.cons y ih) (List.Perm.swap x y ys)

theorem sortDesc_perm (l : List (String × Option ℚ)) :
    List.Perm (sortDesc l) l := by
  induction l with
  | nil => exact List.Perm.refl _
  | cons x xs ih =>
      exact List.Perm.trans (insertDesc_perm x _) (List.Perm.cons x ih)

/-! ### The clinic aggregate -/

theorem clinic_agg_eq (rs : List Record) (mode : String) :
    clinic_agg rs mode
      = sortDesc ((sortedUnique strLt (rs.filterMap fun r => r.clinic)).map
          (fun k => (k, reduceVals mode
            ((rs.filter (fun r => decide (r.clinic = some k))).filterMap
              (fun r => r.deaths))))) := by
  rw [clinic_agg, groupByKey, List.map_map]
  rfl

/-! ### Loaded records -/

theorem buildRecords_ok_mem (ncols : List String) (cm : ColsMap) :
    ∀ (rows : List (List (Option String))) (recs : List Record),
      buildRecords ncols cm rows = Except.ok recs →
      ∀ r ∈ recs, ∃ row ∈ rows, buildRecord ncols cm row = Except.ok r := by
  intro rows
  induction rows with
  | nil =>
      intro recs h r hr
      rw [buildRecords] at h
      cases h
      exact absurd hr (List.not_mem_nil r)
  | cons row rest ih =>
      intro recs h r hr
      rw [buildRecords] at h
      cases hbr : buildRecord ncols cm row with
      | error e =>
          rw [hbr] at h
          exact Except.noConfusion h
      | ok r0 =>
          rw [hbr] at h
          cases hrest : buildRecords ncols cm rest with
          | error e =>
              rw [hrest] at h
              exact Except.noConfusion h
          | ok rs0 =>
              rw [hrest] at h
              cases h
              rcases List.mem_cons.mp hr with rfl | hr2
              · exact ⟨row, List.mem_cons_self row rest, hbr⟩
              · rcases ih rs0 hrest r hr2 with ⟨row2, hrow2, hbr2⟩
                exact ⟨row2, List.mem_cons_of_mem row hrow2, hbr2⟩

theorem buildRecord_clinic_all (ncols : List String) (cm : ColsMap)
    (hcl : cm.clinic = none) (row : List (Option String)) (r : Record)
    (h : buildRecord ncols cm row = Except.ok r) : r.clinic = some "All" := by
  rw [buildRecord] at h
  cases hy : coerceYearField cm ncols row with
  | error e =>
      rw [hy] at h
      exact Except.noConfusion h
  | ok y =>
      rw [hy] at h
      cases h
      show clinicField cm.clinic ncols row = some "All"
      rw [hcl, clinicField]

theorem load_data_ok (t : RawTable) (cm : ColsMap) (recs : List Record)
    (h : load_data t = Except.ok (cm, recs)) :
    cm = detectCols (normalize_columns t.cols)
    ∧ buildRecords (normalize_columns t.cols)
        (detectCols (normalize_columns t.cols)) t.rows = Except.ok recs := by
  rw [load_data] at h
  cases hb : buildRecords (normalize_columns t.cols)
      (detectCols (normalize_columns t.cols)) t.rows with
  | error e =>
      rw [hb] at h
      exact Except.noConfusion h
  | ok recs0 =>
      rw [hb] at h
      cases h
      exact ⟨rfl, rfl⟩

theorem load_data_clinic_all (t : RawTable) (cm : ColsMap)
    (recs : List Record) (h : load_data t = Except.ok (cm, recs))
    (hcl : cm.clinic = none) : ∀ r ∈ recs, r.clinic = some "All" := by
  rcases load_data_ok t cm recs h with ⟨hcm, hb⟩
  intro r hr
  rcases buildRecords_ok_mem _ _ t.rows recs hb r hr with ⟨row, -, hbr⟩
  exact buildRecord_clinic_all _ _ (hcm ▸ hcl) row r hbr

theorem clinic_agg_length (rs : List Record) (mode : String) :
    (clinic_agg rs mode).length
      = (sortedUnique strLt (rs.filterMap fun r => r.clinic)).length := by
  rw [clinic_agg_eq]
  rw [(sortDesc_perm _).length_eq]
  rw [List.length_map]

/-- C7: when no clinic-like column is detected, every canonical record's
clinic is the placeholder `"All"`, and the clinic aggregation of any
nonempty filtered subset has exactly one group. -/
theorem no_clinic_col_placeholder (t : RawTable) (cm : ColsMap)
    (recs : List Record) (h : load_data t = Except.ok (cm, recs))
    (hcl : cm.clinic = none) :
    (∀ r ∈ recs, r.clinic = some "All")
    ∧ ∀ (lo hi : Int) (clinics : List String) (mode : String),
        filterRecords recs lo hi clinics ≠ [] →
        (clinic_agg (filterRecords recs lo hi clinics) mode).length = 1 := by
  have hall := load_data_clinic_all t cm recs h hcl
  refine ⟨hall, ?_⟩
  intro lo hi clinics mode hne
  have hallf : ∀ r ∈ filterRecords recs lo hi clinics, r.clinic = some "All" :=
    fun r hr => hall r ((mem_filterRecords recs lo hi clinics r).mp hr).1
  have hconst : ∀ c ∈ (filterRecords recs lo hi clinics).filterMap
      (fun r => r.clinic), c = "All" := by
    intro c hc
    rcases List.mem_filterMap.mp hc with ⟨r, hr, hrc⟩
    rw [hallf r hr] at hrc
    exact (Option.some_inj.mp hrc).symm
  have hnonempty : (filterRecords recs lo hi clinics).filterMap
      (fun r => r.clinic) ≠ [] := by
    rcases List.exists_mem_of_ne_nil _ hne with ⟨r, hr⟩
    exact List.ne_nil_of_mem
      (List.mem_filterMap.mpr ⟨r, hr, hallf r hr⟩)
  rw [clinic_agg_length,
    sortedUnique_const strLt_strictOrd "All" _ hnonempty hconst]
  rfl

/-- Closed instance of C7. -/
theorem no_clinic_col_placeholder_witness :
    (∀ r ∈ [(⟨some 1854, some 10, none, some "All"⟩ : Record)],
      r.clinic = some "All")
    ∧ (clinic_agg (filterRecords [⟨some 1854, some 10, none, some "All"⟩]
        1854 1854 []) "sum").length = 1 := by
  have h := no_clinic_col_placeholder
    ⟨["Year", "Deaths"], [[some "1854", some "10"]]⟩
    ⟨some "year", some "deaths", none, none⟩
    [⟨some 1854, some 10, none, some "All"⟩] (by decide) rfl
  exact ⟨h.1, h.2 1854 1854 [] "sum" (by decide)⟩

/-- C8, counterexample: with a clinic column present (`cols_map.clinic` is
`some "clinic"`) and one empty clinic cell, normalization leaves that
row's clinic missing — the claim that a present clinic field is defined
for every row fails at this input. -/
theorem clinic_partially_missing_cex :
    load_data ⟨["clinic", "year", "deaths"],
        [[none, some "1854", some "10"], [some "A", some "1855", some "3"]]⟩
      = Except.ok (⟨some "year", some "deaths", none, some "clinic"⟩,
        [⟨some 1854, some 10, none, none⟩,
         ⟨some 1855, some 3, none, some "A"⟩])
    ∧ (⟨some 1854, some 10, none, none⟩ : Record).clinic = none := by
  exact ⟨by decide, rfl⟩

/-- C8, amended: the `"All"` placeholder is applied — to every row — only
when no clinic-like column exists at all; when a clinic column is present
its per-row values are taken as-is and may be missing, and the clinic
selector list contains exactly the non-missing clinic values. -/
theorem clinic_placeholder_dataset_level (t : RawTable) (cm : ColsMap)
    (recs : List Record) (h : load_data t = Except.ok (cm, recs)) :
    (cm.clinic = none → ∀ r ∈ recs, r.clinic = some "All")
    ∧ (∀ c : String, c ∈ clinic_list recs ↔ ∃ r ∈ recs, r.clinic = some c) := by
  refine ⟨load_data_clinic_all t cm recs h, ?_⟩
  intro c
  rw [clinic_list, mem_sortedUnique, List.mem_filterMap]

/-- Closed instance of the amended C8. -/
theorem clinic_placeholder_dataset_level_witness :
    ("A" : String) ∈ clinic_list
      [⟨some 1854, some 10, none, none⟩,
       ⟨some 1855, some 3, none, some "A"⟩] := by
  exact ((clinic_placeholder_dataset_level
    ⟨["clinic", "year", "deaths"],
      [[none, some "1854", some "10"], [some "A", some "1855", some "3"]]⟩
    ⟨some "year", some "deaths", none, some "clinic"⟩
    [⟨some 1854, some 10, none, none⟩, ⟨some 1855, some 3, none, some "A"⟩]
    (by decide)).2 "A").mpr
    ⟨⟨some 1855, some 3, none, some "A"⟩, by simp, rfl⟩

/-! ### Fatal paths of the run -/

/-- C4: on a source with no deaths-like column (so the claim demands a
SchemaInvalid report) whose detected year column holds the numeric but
non-integral text "1854.5", the run aborts with the year-cast type error
raised during `load_data` — before the required-column check of line 87 —
so no SchemaInvalid message enumerating the detected columns is ever
produced. -/
theorem schema_error_preempted_by_year_cast :
    (detectCols (normalize_columns ["year"])).deaths = none
    ∧ runPipeline ⟨["year"], [[some "1854.5"]]⟩ ⟨1850, 1860, [], "sum"⟩
        = Except.error (AppError.typeError
            "cannot safely cast non-equivalent float64 to int64") := by
  decide

/-- C5: a dataset that passes both fatal preconditions (readable, year and
deaths columns detected) but whose only year value is the unparseable
text "abc": the cell is coerced to missing without dropping the row, yet
`int(df["year"].min())` on the all-missing year column then raises an
uncaught TypeError — an exception past the normalization/aggregation
boundary, contradicting the claim. -/
theorem all_missing_year_pipeline_raises :
    (detectCols (normalize_columns ["year", "deaths"])).year = some "year"
    ∧ (detectCols (normalize_columns ["year", "deaths"])).deaths
        = some "deaths"
    ∧ load_data ⟨["year", "deaths"], [[some "abc", some "5"]]⟩
        = Except.ok (⟨some "year", some "deaths", none, none⟩,
            [⟨none, some 5, none, some "All"⟩])
    ∧ runPipeline ⟨["year", "deaths"], [[some "abc", some "5"]]⟩
        ⟨1850, 1860, [], "sum"⟩
        = Except.error (AppError.typeError
            "int() argument must be a number, not NAType") := by
  decide

/-! ### Empty filter results -/

/-- C9: when the filters exclude every record, the year and clinic
aggregates are empty collections and the scalar totals are zero for sum
and missing (absent) for mean, for deaths and births alike — the
aggregation functions are total, so no error is possible. -/
theorem empty_filter_aggregates (rs : List Record) (lo hi : Int)
    (clinics : List String) (mode : String)
    (h : filterRecords rs lo hi clinics = []) :
    deaths_by_year (filterRecords rs lo hi clinics) mode = []
    ∧ clinic_agg (filterRecords rs lo hi clinics) mode = []
    ∧ total_deaths (filterRecords rs lo hi clinics) "sum" = some 0
    ∧ total_deaths (filterRecords rs lo hi clinics) "mean" = none
    ∧ total_births (filterRecords rs lo hi clinics) "sum" = some 0
    ∧ total_births (filterRecords rs lo hi clinics) "mean" = none := by
  rw [h]
  exact ⟨rfl, rfl, by decide, by decide, by decide, by decide⟩

/-- Closed instance of C9: a year range matching no record. -/
theorem empty_filter_aggregates_witness :
    deaths_by_year (filterRecords [⟨some 1854, some 10, none, some "A"⟩]
      1900 1910 []) "sum" = []
    ∧ total_deaths (filterRecords [⟨some 1854, some 10, none, some "A"⟩]
        1900 1910 []) "mean" = none := by
  have h := empty_filter_aggregates [⟨some 1854, some 10, none, some "A"⟩]
    1900 1910 [] "sum" (by decide)
  exact ⟨h.1, h.2.2.2.1⟩

/-! ### Sum and mean -/

theorem mem_deaths_by_year_val (rs : List Record) (mode : String)
    (y : Int) (v : Option ℚ) (h : (y, v) ∈ deaths_by_year rs mode) :
    v = reduceVals mode (groupDeaths rs y) := by
  rw [deaths_by_year, groupByKey, List.map_map] at h
  rcases List.mem_map.mp h with ⟨k0, -, heq⟩
  have hk : k0 = y := congrArg Prod.fst heq
  subst hk
  exact (congrArg Prod.snd heq).symm

/-- C10: for any year group of the filtered set with at least one
non-missing deaths value, the mean aggregate equals the sum aggregate
divided by the count of non-missing values in that group. -/
theorem mean_eq_sum_div_count (rs : List Record) (y : Int)
    (vm vs : Option ℚ) (hm : (y, vm) ∈ deaths_by_year rs "mean")
    (hs : (y, vs) ∈ deaths_by_year rs "sum")
    (hne : groupDeaths rs y ≠ []) :
    vs = some (groupDeaths rs y).sum
    ∧ vm = some ((groupDeaths rs y).sum / ((groupDeaths rs y).length : ℚ)) := by
  constructor
  · rw [mem_deaths_by_year_val rs "sum" y vs hs, reduceVals_sum]
  · rw [mem_deaths_by_year_val rs "mean" y vm hm, reduceVals_mean _ hne]

/-- Closed instance of C10: the 1854 group holds deaths 10 and 20; the sum
aggregate is 30 and the mean aggregate is 30/2 = 15. -/
theorem mean_eq_sum_div_count_witness :
    (some (30 : ℚ) = some (groupDeaths
        [⟨some 1854, some 10, none, some "A"⟩,
         ⟨some 1854, some 20, none, some "B"⟩] 1854).sum)
    ∧ (some (15 : ℚ) = some ((groupDeaths
        [⟨some 1854, some 10, none, some "A"⟩,
         ⟨some 1854, some 20, none, some "B"⟩] 1854).sum
          / ((groupDeaths
        [⟨some 1854, some 10, none, some "A"⟩,
         ⟨some 1854, some 20, none, some "B"⟩] 1854).length : ℚ))) :=
  mean_eq_sum_div_count
    [⟨some 1854, some 10, none, some "A"⟩,
     ⟨some 1854, some 20, none, some "B"⟩] 1854
    (some 15) (some 30) (by decide) (by decide) (by decide)

end MortalityApp
